import Mathlib

/-!
Verification development for the game-score-counter repository.

The TypeScript core is shallowly embedded: JS numbers are modelled as
rationals (`ℚ`), JS arrays as `List`, optional fields as `Option`, and the
React `useState` updates as pure functions from `GameState` to `GameState`.
Each definition carries a comment naming the source location it embeds.
-/

namespace GameScore

/-- src/types/game.ts `Player`. `predictions` is the optional parallel array,
`gaveUpAtRound` the optional give-up marker. -/
structure Player where
  id : String
  name : String
  totalScore : ℚ
  scores : List ℚ
  predictions : Option (List ℚ)
  joinedAtRound : ℕ
  isActive : Bool
  gaveUpAtRound : Option ℕ
deriving Repr, DecidableEq, Inhabited

/-- src/types/game.ts `RoundScore`. -/
structure RoundScore where
  playerId : String
  score : ℚ
  prediction : Option ℚ
deriving Repr, DecidableEq, Inhabited

/-- src/types/game.ts `GameState`, restricted to the ledger fields (the
database-sync bookkeeping fields carry no ledger content). -/
structure GameState where
  players : List Player
  currentRound : ℕ
  isDualScoring : Bool
  isGameFinished : Bool
  highScoreWins : Bool
deriving Repr, DecidableEq, Inhabited

/-- JS `score || 0` applied to a numeric score: `0` (and `NaN`) are falsy.
On rationals this is the identity, written out to mirror the source text of
`handleScoreSubmit`'s total recomputation. -/
def jsOrZero (x : ℚ) : ℚ :=
  if x = 0 then 0 else x

/-- src/lib/translations.ts `calculateCumulativeScore`:
`scores.reduce((sum, score) => sum + score, 0)`. -/
def calculateCumulativeScore (scores : List ℚ) : ℚ :=
  scores.foldl (fun sum score => sum + score) 0

/-- src/lib/translations.ts `calculateStartingScore` (lines 175-186): guard on
empty players or round 0, then `avgScorePerRound = totalPoints / currentRound`
and the returned value `avgScorePerRound * currentRound`. -/
def calculateStartingScore (players : List Player) (currentRound : ℕ) : ℚ :=
  if players.length = 0 ∨ currentRound = 0 then 0
  else
    let totalPoints := players.foldl (fun sum p => sum + p.totalScore) 0
    let avgScorePerRound := totalPoints / (currentRound : ℚ)
    avgScorePerRound * (currentRound : ℚ)

/-- The JS comparator `highScoreWins ? b.totalScore - a.totalScore
: a.totalScore - b.totalScore` read as the `le` test `cmp a b <= 0`, the order
realised by the (specified-stable) `Array.prototype.sort`. -/
def scoreLe (highScoreWins : Bool) (a b : Player) : Bool :=
  if highScoreWins then decide (b.totalScore - a.totalScore ≤ 0)
  else decide (a.totalScore - b.totalScore ≤ 0)

/-- src/lib/translations.ts `rankPlayers` (lines 215-222):
`[...players].sort(cmp)`; ECMAScript `sort` is a stable sort, embedded as the
stable `List.mergeSort` on the comparator order. -/
def rankPlayers (players : List Player) (highScoreWins : Bool) : List Player :=
  players.mergeSort (scoreLe highScoreWins)

/-- src/lib/translations.ts `determineWinner` (lines 194-207): `null` on an
empty player list (embedded as `none`), otherwise `sortedPlayers[0]` of its own
stable sort by the same comparator. -/
def determineWinner (players : List Player) (highScoreWins : Bool) : Option Player :=
  if players.length = 0 then none
  else (players.mergeSort (scoreLe highScoreWins)).head?

/-- The slot rule of src/pages/Index.tsx `handleScoreSubmit` (applied to both
`scores` and `predictions`): push when the array has exactly `roundIndex`
entries, overwrite in place when it is longer, otherwise zero-fill the missing
rounds and push. -/
def slotUpdate (old : List ℚ) (roundIndex : ℕ) (v : ℚ) : List ℚ :=
  if old.length = roundIndex then old ++ [v]
  else if roundIndex < old.length then old.set roundIndex v
  else (old ++ List.replicate (roundIndex - old.length) 0) ++ [v]

/-- The per-player body of src/pages/Index.tsx `handleScoreSubmit`
(lines 96-133) for an active player with a matching entry: slot-update the
scores, slot-update the predictions when both the player has a predictions
array and the entry carries a prediction, then recompute
`totalScore = newScores.reduce((sum, score) => sum + (score || 0), 0)`. -/
def applyEntry (currentRound : ℕ) (roundScore : RoundScore) (player : Player) : Player :=
  let roundIndex := currentRound - 1
  let newScores := slotUpdate player.scores roundIndex roundScore.score
  let newPredictions :=
    match player.predictions, roundScore.prediction with
    | some l, some v => some (slotUpdate l roundIndex v)
    | some l, none => some l
    | none, _ => none
  { player with
      scores := newScores
      predictions := newPredictions
      totalScore := newScores.foldl (fun sum score => sum + jsOrZero score) 0 }

/-- src/pages/Index.tsx `handleScoreSubmit` (lines 89-140): inactive players
are skipped, players without a matching entry are left alone, the rest go
through `applyEntry`. -/
def handleScoreSubmit (st : GameState) (scores : List RoundScore) : GameState :=
  { st with
      players := st.players.map fun player =>
        if player.isActive = false then player
        else
          match scores.find? (fun s => s.playerId == player.id) with
          | none => player
          | some roundScore => applyEntry st.currentRound roundScore player }

/-- src/pages/Index.tsx `handleAddPlayer` (lines 164-188): backfill
`currentRound - 1` slots with `startingScore / previousRounds` each (0 slots
when no previous rounds), total set to the starting score, joined at the
current round. The nondeterministic id string is a parameter. -/
def handleAddPlayer (st : GameState) (id name : String) (startingScore : ℚ) : GameState :=
  let previousRounds := st.currentRound - 1
  let scorePerRound := if 0 < previousRounds then startingScore / (previousRounds : ℚ) else 0
  let scores := List.replicate previousRounds scorePerRound
  let newPlayer : Player :=
    { id := id
      name := name
      totalScore := startingScore
      scores := scores
      predictions := if st.isDualScoring then some (List.replicate previousRounds 0) else none
      joinedAtRound := st.currentRound
      isActive := true
      gaveUpAtRound := none }
  { st with players := st.players ++ [newPlayer] }

/-- src/components/game/GameScreen.tsx `handleAddPlayer` (line 272): the
starting score handed to the ledger is forced to 0 at round 1, otherwise the
entered value with blank parsed as 0
(`currentRound === 1 ? 0 : parseFloat(newPlayerScore || "0")`). -/
def gsAddPlayer (st : GameState) (id name : String) (scoreInput : Option ℚ) : GameState :=
  let score := if st.currentRound = 1 then 0 else scoreInput.getD 0
  handleAddPlayer st id name score

/-- The per-player update of src/pages/Index.tsx `handleTogglePlayerActive`
(lines 197-216): an active player gives up (`isActive := false`,
`gaveUpAtRound := currentRound`), an inactive one rejoins (`isActive := true`,
`joinedAtRound := currentRound`, `gaveUpAtRound` kept). -/
def togglePlayer (currentRound : ℕ) (p : Player) : Player :=
  if p.isActive then { p with isActive := false, gaveUpAtRound := some currentRound }
  else { p with isActive := true, joinedAtRound := currentRound }

/-- src/pages/Index.tsx `handleTogglePlayerActive` (lines 191-225): no-op when
the id is not found, otherwise map `togglePlayer` over the matching player and
leave every other player record untouched. -/
def handleTogglePlayerActive (st : GameState) (playerId : String) : GameState :=
  match st.players.findIdx? (fun p => p.id == playerId) with
  | none => st
  | some _ =>
      { st with
          players := st.players.map fun p =>
            if p.id == playerId then togglePlayer st.currentRound p else p }

/-- src/pages/Index.tsx `handleNextRound`. -/
def handleNextRound (st : GameState) : GameState :=
  { st with currentRound := st.currentRound + 1 }

/-- src/pages/Index.tsx `handlePreviousRound` (guarded by `currentRound > 1`). -/
def handlePreviousRound (st : GameState) : GameState :=
  if 1 < st.currentRound then { st with currentRound := st.currentRound - 1 } else st

/-- src/pages/Index.tsx `handleStartGame` (lines 52-75): fresh players joined
at round 1, empty scores, zero totals. -/
def handleStartGame (playerNames : List String) (isDual highWins : Bool) : GameState :=
  { players := playerNames.enum.map fun pair =>
      { id := "player-" ++ toString pair.1
        name := pair.2
        totalScore := 0
        scores := []
        predictions := if isDual then some [] else none
        joinedAtRound := 1
        isActive := true
        gaveUpAtRound := none }
    currentRound := 1
    isDualScoring := isDual
    isGameFinished := false
    highScoreWins := highWins }

/-- src/pages/Index.tsx `handlePlayAgain` (lines 251-275): keep identities and
names, reset every score field back to the round-1 segment. -/
def handlePlayAgain (st : GameState) : GameState :=
  { st with
      players := st.players.map fun p =>
        { p with
            totalScore := 0
            scores := []
            predictions := if st.isDualScoring then some [] else none
            isActive := true
            gaveUpAtRound := none
            joinedAtRound := 1 }
      currentRound := 1
      isGameFinished := false }

/-- src/components/game/GameScreen.tsx `handleSubmitRound` (lines 197-205):
one entry per active player, `score: parseFloat(scoreValue || "0")`, so a
missing or blank field becomes 0; predictions likewise when dual scoring. The
text inputs are modelled as `Option ℚ` with `none` for missing or blank. -/
def buildRoundScores (st : GameState) (scoreInput predictionInput : String → Option ℚ) :
    List RoundScore :=
  (st.players.filter fun p => p.isActive).map fun p =>
    { playerId := p.id
      score := (scoreInput p.id).getD 0
      prediction := if st.isDualScoring then some ((predictionInput p.id).getD 0) else none }

/-- The composition actually run on submit: GameScreen builds the entries and
Index.tsx `handleScoreSubmit` applies them. -/
def handleSubmitRound (st : GameState) (scoreInput predictionInput : String → Option ℚ) :
    GameState :=
  handleScoreSubmit st (buildRoundScores st scoreInput predictionInput)

/-- JS truthiness of the optional numeric `gaveUpAtRound`: absent and `0` are
falsy. -/
def truthyNat (o : Option ℕ) : Bool :=
  match o with
  | none => false
  | some n => n != 0

/-- src/unnamed/part_010 `isJustJoined`. -/
def isJustJoined (currentRound : ℕ) (p : Player) : Bool :=
  p.joinedAtRound == currentRound

/-- src/unnamed/part_010 `isJustRejoined`. -/
def isJustRejoined (currentRound : ℕ) (p : Player) : Bool :=
  truthyNat p.gaveUpAtRound && (p.joinedAtRound == currentRound) && p.isActive

/-- The cumulative sum
`player.scores.slice(0, roundIndex + 1).reduce((sum, score) => sum + score, 0)`
from src/unnamed/part_010. -/
def cumulativeThrough (scores : List ℚ) (roundIndex : ℕ) : ℚ :=
  (scores.take (roundIndex + 1)).foldl (fun sum score => sum + score) 0

/-- The common tail of the regular-round branch of src/unnamed/part_010
`chartData`: no data for a still-inactive player past their give-up round, no
data past the recorded scores, otherwise the cumulative sum through the round. -/
def chartTail (p : Player) (round roundIndex : ℕ) : Option ℚ :=
  if p.isActive = false ∧ truthyNat p.gaveUpAtRound = true ∧ p.gaveUpAtRound.getD 0 ≤ round
  then none
  else if p.scores.length ≤ roundIndex then none
  else some (cumulativeThrough p.scores roundIndex)

/-- The per-(round, player) value of `chartData` in src/unnamed/part_010
(lines 95-192). `none` stands for an absent key as well as an explicit `null`:
both render as a gap (NoData). `completedRounds = max(currentRound - 1, 0)` is
truncated ℕ subtraction. -/
def chartValue (currentRound : ℕ) (visible : String → Bool) (round : ℕ) (p : Player) :
    Option ℚ :=
  let completedRounds := currentRound - 1
  if round = 0 then
    if visible p.id = false then none
    else if 1 < p.joinedAtRound then none
    else some 0
  else if visible p.id = false then none
  else
    let roundIndex := round - 1
    if isJustJoined currentRound p = true ∧ round = completedRounds then some p.totalScore
    else if isJustRejoined currentRound p = true ∧ round = completedRounds then some p.totalScore
    else if truthyNat p.gaveUpAtRound then
      let g := p.gaveUpAtRound.getD 0
      if round < g then
        if p.scores.length ≤ roundIndex then none
        else some (cumulativeThrough p.scores roundIndex)
      else if g ≤ round ∧ round < p.joinedAtRound - 1 then none
      else if round < p.joinedAtRound - 1 then none
      else chartTail p round roundIndex
    else
      if round < p.joinedAtRound - 1 then none
      else chartTail p round roundIndex

/-- The spec invariant `player.totalScore == sum(player.scores)`, with the sum
taken by the source's own `calculateCumulativeScore`. -/
def TotalInv (st : GameState) : Prop :=
  ∀ p ∈ st.players, p.totalScore = calculateCumulativeScore p.scores

instance (st : GameState) : Decidable (TotalInv st) := by
  unfold TotalInv
  infer_instance

/-! Concrete scenario data.

`stC2d` replays spec Scenario C through the embedded mutations: a game starts
with A and B, round 1 is scored (A:5, B:10), B gives up at round 2, rounds 2
and 3 are scored by A alone, B rejoins at round 4, round 4 is scored
(A:2, B:7), and the round counter advances to 5, so round 4 is the most
recently completed round. -/

def entriesR1 : List RoundScore := [⟨"player-0", 5, none⟩, ⟨"player-1", 10, none⟩]

def entriesR2 : List RoundScore := [⟨"player-0", 3, none⟩]

def entriesR3 : List RoundScore := [⟨"player-0", 4, none⟩]

def entriesR4 : List RoundScore := [⟨"player-0", 2, none⟩, ⟨"player-1", 7, none⟩]

def stC2a : GameState :=
  handleNextRound (handleScoreSubmit (handleStartGame ["A", "B"] false true) entriesR1)

def stC2b : GameState :=
  handleNextRound (handleScoreSubmit (handleTogglePlayerActive stC2a "player-1") entriesR2)

def stC2c : GameState :=
  handleNextRound (handleScoreSubmit stC2b entriesR3)

def stC2d : GameState :=
  handleNextRound (handleScoreSubmit (handleTogglePlayerActive stC2c "player-1") entriesR4)

/-- Player B of the Scenario C replay: after the trace above their record is
`scores = [10, 0, 0, 7]`, `totalScore = 17`, `joinedAtRound = 4`,
`gaveUpAtRound = some 2`, active. -/
def playerB : Player :=
  stC2d.players.getD 1 default

/-- A player with totals only, used for the fairness-formula inputs. -/
def totalOnly (id : String) (t : ℚ) : Player :=
  { id := id, name := id, totalScore := t, scores := [], predictions := none,
    joinedAtRound := 1, isActive := true, gaveUpAtRound := none }

/-- A freshly started round-1 player. -/
def samplePlayer : Player :=
  { id := "s", name := "s", totalScore := 0, scores := [], predictions := none,
    joinedAtRound := 1, isActive := true, gaveUpAtRound := none }

/-- The mid-game joiner of the C3 counterexample: joined at round 3 with two
backfilled slots `[10, 10]`. -/
def pMid : Player :=
  { id := "C", name := "C", totalScore := 20, scores := [10, 10], predictions := none,
    joinedAtRound := 3, isActive := true, gaveUpAtRound := none }

def stC3 : GameState :=
  { players := [pMid], currentRound := 3, isDualScoring := false,
    isGameFinished := false, highScoreWins := true }

def entC3 : List RoundScore := [⟨"C", 7, none⟩]

/-! Evaluation of the Scenario C replay, one mutation step at a time.
Rational arithmetic does not reduce in the kernel, so these are proved by
simp-based evaluation rather than `decide`. -/

theorem stC2a_eval :
    stC2a = ⟨[⟨"player-0", "A", 5, [5], none, 1, true, none⟩,
      ⟨"player-1", "B", 10, [10], none, 1, true, none⟩], 2, false, false, true⟩ := by
  norm_num +decide [stC2a, handleNextRound, handleScoreSubmit, handleStartGame, entriesR1,
    applyEntry, slotUpdate, jsOrZero, List.enum]

theorem stC2b_eval :
    stC2b = ⟨[⟨"player-0", "A", 8, [5, 3], none, 1, true, none⟩,
      ⟨"player-1", "B", 10, [10], none, 1, false, some 2⟩], 3, false, false, true⟩ := by
  norm_num +decide [stC2b, stC2a_eval, handleNextRound, handleScoreSubmit,
    handleTogglePlayerActive, togglePlayer, entriesR2, applyEntry, slotUpdate, jsOrZero]

theorem stC2c_eval :
    stC2c = ⟨[⟨"player-0", "A", 12, [5, 3, 4], none, 1, true, none⟩,
      ⟨"player-1", "B", 10, [10], none, 1, false, some 2⟩], 4, false, false, true⟩ := by
  norm_num +decide [stC2c, stC2b_eval, handleNextRound, handleScoreSubmit, entriesR3,
    applyEntry, slotUpdate, jsOrZero]

theorem stC2d_eval :
    stC2d = ⟨[⟨"player-0", "A", 14, [5, 3, 4, 2], none, 1, true, none⟩,
      ⟨"player-1", "B", 17, [10, 0, 0, 7], none, 4, true, some 2⟩], 5, false, false, true⟩ := by
  norm_num +decide [stC2d, stC2c_eval, handleNextRound, handleScoreSubmit,
    handleTogglePlayerActive, togglePlayer, entriesR4, applyEntry, slotUpdate, jsOrZero,
    List.replicate_succ]

theorem playerB_eval :
    playerB = ⟨"player-1", "B", 17, [10, 0, 0, 7], none, 4, true, some 2⟩ := by
  norm_num [playerB, stC2d_eval]

/-! Claim theorems. -/

/-- C1 (code bug evaluated at the failing input): with two players whose totals
are 30 and 10 at round 3, `calculateStartingScore` returns 40 — the sum
`totalPoints / currentRound * currentRound` collapses to the total of all
totals, not the mean `(30 + 10) / 2 = 20` that the function's own doc comment
("puts new player at average position") and the spec promise. -/
theorem calculateStartingScore_returns_sum_not_mean :
    calculateStartingScore [totalOnly "A" 30, totalOnly "B" 10] 3 = 40 ∧
    calculateStartingScore [totalOnly "A" 30, totalOnly "B" 10] 3 ≠ (30 + 10) / 2 := by
  constructor
  · norm_num [calculateStartingScore, totalOnly]
  · norm_num [calculateStartingScore, totalOnly]

/-- C9: the guard clause of `calculateStartingScore` returns 0 on an empty
player list and on `currentRound = 0`, for every player list and round. -/
theorem calculateStartingScore_guard (players : List Player) (r : ℕ) :
    calculateStartingScore [] r = 0 ∧ calculateStartingScore players 0 = 0 := by
  constructor <;> simp [calculateStartingScore]

/-- C2 (counterexample): in the Scenario C replay (`gaveUpAtRound = 2`,
rejoin with `joinedAtRound = 4`, round 4 the most recently completed round)
the chart emits a data point (10) for B at round 3 — not NoData — and NoData
at round 2 — not the historical point the claim asserts. -/
theorem chartData_scenarioC_counterexample :
    stC2d.currentRound = 5 ∧ playerB.gaveUpAtRound = some 2 ∧ playerB.joinedAtRound = 4 ∧
    chartValue stC2d.currentRound (fun _ => true) 3 playerB = some 10 ∧
    chartValue stC2d.currentRound (fun _ => true) 2 playerB = none := by
  norm_num +decide [stC2d_eval, playerB_eval, chartValue, chartTail, isJustJoined,
    isJustRejoined, truthyNat, cumulativeThrough]

/-- C2 (amended): the gap branch covers rounds `r` with
`gaveUpAtRound ≤ r < joinedAtRound - 1`, so in Scenario C the NoData gap for B
is round 2 only; round 1 keeps the historical cumulative 10, round 3 (the
rejoin lead-in, `joinedAtRound - 1`) shows the cumulative through the
zero-filled gap slots (10), and round 4 shows B's current `totalScore` 17. -/
theorem chartData_scenarioC_amended :
    chartValue stC2d.currentRound (fun _ => true) 1 playerB = some 10 ∧
    chartValue stC2d.currentRound (fun _ => true) 2 playerB = none ∧
    chartValue stC2d.currentRound (fun _ => true) 3 playerB = some 10 ∧
    chartValue stC2d.currentRound (fun _ => true) 4 playerB = some playerB.totalScore ∧
    playerB.totalScore = 17 := by
  norm_num +decide [stC2d_eval, playerB_eval, chartValue, chartTail, isJustJoined,
    isJustRejoined, truthyNat, cumulativeThrough]

/-- C4 (counterexample): in the Scenario C replay both players' first segments
began at round 1 (`handleStartGame` set `joinedAtRound = 1`), at least one
round is completed, yet B reports NoData at the synthetic round 0, because the
round-0 branch tests the current `joinedAtRound`, which the rejoin reset to 4. -/
theorem chartData_round0_counterexample :
    (handleStartGame ["A", "B"] false true).players.map Player.joinedAtRound = [1, 1] ∧
    1 ≤ stC2d.currentRound - 1 ∧
    chartValue stC2d.currentRound (fun _ => true) 0 playerB = none := by
  refine ⟨by norm_num +decide [handleStartGame, List.enum], ?_, ?_⟩ <;>
    norm_num +decide [stC2d_eval, playerB_eval, chartValue]

/-- C4 (amended): at the synthetic round 0 a visible player reports 0 exactly
when their *current* `joinedAtRound` is at most 1, and NoData otherwise; the
current segment's join round is tested, not the first segment's. -/
theorem chartValue_round0 (currentRound : ℕ) (visible : String → Bool) (p : Player)
    (_hcompleted : 1 ≤ currentRound - 1) (hv : visible p.id = true) :
    chartValue currentRound visible 0 p = if 1 < p.joinedAtRound then none else some 0 := by
  unfold chartValue
  simp [hv]

/-- Witness for the amended C4 theorem at a concrete player and round. -/
theorem chartValue_round0_witness :
    chartValue 3 (fun _ => true) 0 samplePlayer = if 1 < samplePlayer.joinedAtRound then none else some 0 :=
  chartValue_round0 3 (fun _ => true) samplePlayer (by decide) (by decide)

/-! Extensional characterisation of the slot rule. -/

theorem slotUpdate_append_iff (s : List ℚ) (idx : ℕ) (v : ℚ) :
    slotUpdate s idx v = s ++ [v] ↔ s.length = idx := by
  unfold slotUpdate
  by_cases h1 : s.length = idx
  · simp [h1]
  · rw [if_neg h1]
    by_cases h2 : idx < s.length
    · rw [if_pos h2]
      constructor
      · intro he
        have hl := congrArg List.length he
        simp only [List.length_set, List.length_append, List.length_singleton] at hl
        omega
      · intro h
        exact absurd h h1
    · rw [if_neg h2]
      constructor
      · intro he
        have hl := congrArg List.length he
        simp only [List.length_append, List.length_replicate, List.length_singleton] at hl
        omega
      · intro h
        exact absurd h h1

theorem slotUpdate_of_over (s : List ℚ) (idx : ℕ) (v : ℚ) (h : idx < s.length) :
    slotUpdate s idx v = s.set idx v := by
  unfold slotUpdate
  rw [if_neg (by omega), if_pos h]

theorem slotUpdate_of_under (s : List ℚ) (idx : ℕ) (v : ℚ) (h : s.length < idx) :
    slotUpdate s idx v = (s ++ List.replicate (idx - s.length) 0) ++ [v] := by
  unfold slotUpdate
  rw [if_neg (by omega), if_neg (by omega)]

theorem slotUpdate_length (s : List ℚ) (idx : ℕ) (v : ℚ) :
    (slotUpdate s idx v).length = max s.length (idx + 1) := by
  unfold slotUpdate
  by_cases h1 : s.length = idx
  · rw [if_pos h1]
    simp only [List.length_append, List.length_singleton]
    omega
  · rw [if_neg h1]
    by_cases h2 : idx < s.length
    · rw [if_pos h2]
      simp only [List.length_set]
      omega
    · rw [if_neg h2]
      simp only [List.length_append, List.length_replicate, List.length_singleton]
      omega

theorem slotUpdate_getElem_at (s : List ℚ) (idx : ℕ) (v : ℚ) :
    (slotUpdate s idx v)[idx]? = some v := by
  unfold slotUpdate
  by_cases h1 : s.length = idx
  · rw [if_pos h1, ← h1]
    exact List.getElem?_concat_length s v
  · rw [if_neg h1]
    by_cases h2 : idx < s.length
    · rw [if_pos h2, List.getElem?_set_self']
      simp [List.getElem?_eq_getElem h2]
    · rw [if_neg h2]
      have hlen : (s ++ List.replicate (idx - s.length) 0).length = idx := by
        simp only [List.length_append, List.length_replicate]
        omega
      have h := List.getElem?_concat_length (s ++ List.replicate (idx - s.length) 0) v
      rw [hlen] at h
      exact h

theorem slotUpdate_getElem_fill (s : List ℚ) (idx j : ℕ) (v : ℚ)
    (h1 : s.length ≤ j) (h2 : j < idx) :
    (slotUpdate s idx v)[j]? = some 0 := by
  rw [slotUpdate_of_under s idx v (lt_of_le_of_lt h1 h2)]
  have hj : j < (s ++ List.replicate (idx - s.length) 0).length := by
    simp only [List.length_append, List.length_replicate]
    omega
  rw [List.getElem?_append_left hj, List.getElem?_append_right h1]
  simp only [List.getElem?_replicate]
  rw [if_pos (by omega)]

theorem slotUpdate_getElem_other (s : List ℚ) (idx j : ℕ) (v : ℚ)
    (h1 : j < s.length) (h2 : j ≠ idx) :
    (slotUpdate s idx v)[j]? = s[j]? := by
  unfold slotUpdate
  by_cases hc : s.length = idx
  · rw [if_pos hc]
    exact List.getElem?_append_left h1
  · rw [if_neg hc]
    by_cases hc2 : idx < s.length
    · rw [if_pos hc2]
      exact List.getElem?_set_ne (Ne.symm h2)
    · rw [if_neg hc2]
      have hj : j < (s ++ List.replicate (idx - s.length) 0).length := by
        simp only [List.length_append, List.length_replicate]
        omega
      rw [List.getElem?_append_left hj, List.getElem?_append_left h1]

theorem applyEntry_scores (r : ℕ) (e : RoundScore) (p : Player) :
    (applyEntry r e p).scores = slotUpdate p.scores (r - 1) e.score := by
  simp [applyEntry]

theorem applyEntry_predictions_some (r : ℕ) (e : RoundScore) (p : Player)
    (l : List ℚ) (v : ℚ) (hl : p.predictions = some l) (hv : e.prediction = some v) :
    (applyEntry r e p).predictions = some (slotUpdate l (r - 1) v) := by
  simp [applyEntry, hl, hv]

/-- C3 (counterexample): for the mid-game joiner `pMid` (joined at round 3,
two backfilled slots) submitting round 3, the claimed append condition
`scores.length = roundNumber - joinedAtRound` (2 = 0) is false, yet the code
appends — the slot index is the global `roundNumber - 1`, not the
segment-relative one. -/
theorem handleScoreSubmit_slot_counterexample :
    pMid.scores.length ≠ stC3.currentRound - pMid.joinedAtRound ∧
    (handleScoreSubmit stC3 entC3).players.map Player.scores = [pMid.scores ++ [7]] := by
  norm_num +decide [pMid, stC3, entC3, handleScoreSubmit, applyEntry, slotUpdate, jsOrZero]

/-- C3 (amended): the slot index is the global `roundNumber - 1`, not
the segment-relative `roundNumber - joinedAtRound`. For every active player
with a matching entry, the submit appends exactly when
`scores.length = roundNumber - 1`, overwrites the slot `roundNumber - 1` in
place when the array is longer, and zero-fills the missing slots before
appending when it is shorter; a prediction entry follows the same rule on
`predictions` when the player has a predictions array. -/
theorem handleScoreSubmit_slot_rule (st : GameState) (entries : List RoundScore)
    (i : ℕ) (p : Player) (e : RoundScore)
    (hp : st.players[i]? = some p) (hact : p.isActive = true)
    (he : entries.find? (fun s => s.playerId == p.id) = some e) :
    ∃ q, (handleScoreSubmit st entries).players[i]? = some q ∧
      (q.scores = p.scores ++ [e.score] ↔ p.scores.length = st.currentRound - 1) ∧
      (st.currentRound - 1 < p.scores.length →
        q.scores = p.scores.set (st.currentRound - 1) e.score) ∧
      (p.scores.length < st.currentRound - 1 →
        q.scores =
          (p.scores ++ List.replicate (st.currentRound - 1 - p.scores.length) 0) ++ [e.score]) ∧
      (∀ l v, p.predictions = some l → e.prediction = some v →
        ∃ m, q.predictions = some m ∧
          (m = l ++ [v] ↔ l.length = st.currentRound - 1) ∧
          (st.currentRound - 1 < l.length → m = l.set (st.currentRound - 1) v) ∧
          (l.length < st.currentRound - 1 →
            m = (l ++ List.replicate (st.currentRound - 1 - l.length) 0) ++ [v])) := by
  refine ⟨applyEntry st.currentRound e p, ?_, ?_, ?_, ?_, ?_⟩
  · show ((st.players.map _))[i]? = _
    rw [List.getElem?_map, hp]
    simp [hact, he]
  · rw [applyEntry_scores]
    exact slotUpdate_append_iff p.scores (st.currentRound - 1) e.score
  · intro h
    rw [applyEntry_scores]
    exact slotUpdate_of_over p.scores (st.currentRound - 1) e.score h
  · intro h
    rw [applyEntry_scores]
    exact slotUpdate_of_under p.scores (st.currentRound - 1) e.score h
  · intro l v hl hv
    refine ⟨slotUpdate l (st.currentRound - 1) v,
      applyEntry_predictions_some st.currentRound e p l v hl hv, ?_, ?_, ?_⟩
    · exact slotUpdate_append_iff l (st.currentRound - 1) v
    · intro h
      exact slotUpdate_of_over l (st.currentRound - 1) v h
    · intro h
      exact slotUpdate_of_under l (st.currentRound - 1) v h

/-- Witness for the amended C3 theorem: the mid-game joiner `pMid` submitting
round 3 with score 7. -/
theorem handleScoreSubmit_slot_rule_witness :
    ∃ q, (handleScoreSubmit stC3 entC3).players[0]? = some q ∧
      (q.scores = pMid.scores ++ [((⟨"C", 7, none⟩ : RoundScore)).score] ↔
        pMid.scores.length = stC3.currentRound - 1) ∧
      (stC3.currentRound - 1 < pMid.scores.length →
        q.scores = pMid.scores.set (stC3.currentRound - 1) ((⟨"C", 7, none⟩ : RoundScore)).score) ∧
      (pMid.scores.length < stC3.currentRound - 1 →
        q.scores = (pMid.scores ++
          List.replicate (stC3.currentRound - 1 - pMid.scores.length) 0) ++
          [((⟨"C", 7, none⟩ : RoundScore)).score]) ∧
      (∀ l v, pMid.predictions = some l → ((⟨"C", 7, none⟩ : RoundScore)).prediction = some v →
        ∃ m, q.predictions = some m ∧
          (m = l ++ [v] ↔ l.length = stC3.currentRound - 1) ∧
          (stC3.currentRound - 1 < l.length → m = l.set (stC3.currentRound - 1) v) ∧
          (l.length < stC3.currentRound - 1 →
            m = (l ++ List.replicate (stC3.currentRound - 1 - l.length) 0) ++ [v])) :=
  handleScoreSubmit_slot_rule stC3 entC3 0 pMid ⟨"C", 7, none⟩ (by rfl) (by rfl) (by rfl)

/-! Sum lemmas for the totalScore invariant. -/

theorem jsOrZero_id (x : ℚ) : jsOrZero x = x := by
  unfold jsOrZero
  split <;> simp_all

theorem foldl_add_eq (l : List ℚ) (c : ℚ) :
    l.foldl (fun sum score => sum + score) c = c + l.sum := by
  induction l generalizing c with
  | nil => simp
  | cons a t ih =>
      simp only [List.foldl_cons, List.sum_cons, ih]
      ring

theorem foldl_jsOrZero_eq (l : List ℚ) (c : ℚ) :
    l.foldl (fun sum score => sum + jsOrZero score) c = c + l.sum := by
  simp only [jsOrZero_id]
  exact foldl_add_eq l c

theorem calculateCumulativeScore_eq_sum (l : List ℚ) :
    calculateCumulativeScore l = l.sum := by
  unfold calculateCumulativeScore
  simpa using foldl_add_eq l 0

/-- C5: every ledger mutation preserves (or establishes) the invariant
`totalScore = sum(scores)` for every player: submitting or re-submitting a
round, the mid-game add-player path (GameScreen coercion composed with the
ledger insertion), the active toggle, the play-again reset, and a fresh game
start. The round counter is at least 1 in every reachable state. -/
theorem totalScore_invariant (st : GameState) (entries : List RoundScore)
    (id name : String) (scoreInput : Option ℚ) (pid : String)
    (names : List String) (dual high : Bool)
    (hinv : TotalInv st) (hround : 1 ≤ st.currentRound) :
    TotalInv (handleScoreSubmit st entries) ∧
    TotalInv (gsAddPlayer st id name scoreInput) ∧
    TotalInv (handleTogglePlayerActive st pid) ∧
    TotalInv (handlePlayAgain st) ∧
    TotalInv (handleStartGame names dual high) := by
  refine ⟨?_, ?_, ?_, ?_, ?_⟩
  · intro q hq
    simp only [handleScoreSubmit, List.mem_map] at hq
    obtain ⟨p, hp, rfl⟩ := hq
    by_cases hact : p.isActive = false
    · rw [if_pos hact]
      exact hinv p hp
    · rw [if_neg hact]
      cases hfind : entries.find? (fun s => s.playerId == p.id) with
      | none => exact hinv p hp
      | some e =>
          simp only [applyEntry, foldl_jsOrZero_eq, calculateCumulativeScore_eq_sum]
          ring
  · intro q hq
    simp only [gsAddPlayer, handleAddPlayer, List.mem_append, List.mem_singleton] at hq
    rcases hq with hq | rfl
    · exact hinv q hq
    · rw [calculateCumulativeScore_eq_sum]
      simp only [List.sum_replicate, nsmul_eq_mul]
      by_cases h1 : st.currentRound = 1
      · simp [h1]
      · have hn : 0 < st.currentRound - 1 := by omega
        rw [if_neg h1, if_pos hn]
        have hne : ((st.currentRound - 1 : ℕ) : ℚ) ≠ 0 := by
          exact_mod_cast Nat.pos_iff_ne_zero.mp hn
        rw [mul_comm, div_mul_cancel₀ _ hne]
  · intro q hq
    unfold handleTogglePlayerActive at hq
    cases hidx : st.players.findIdx? (fun x => x.id == pid) with
    | none =>
        rw [hidx] at hq
        exact hinv q hq
    | some j =>
        rw [hidx] at hq
        simp only [List.mem_map] at hq
        obtain ⟨p, hp, rfl⟩ := hq
        by_cases hid : (p.id == pid) = true
        · rw [if_pos hid]
          unfold togglePlayer
          cases hact : p.isActive <;> simpa using hinv p hp
        · rw [if_neg hid]
          exact hinv p hp
  · intro q hq
    simp only [handlePlayAgain, List.mem_map] at hq
    obtain ⟨p, hp, rfl⟩ := hq
    simp [calculateCumulativeScore_eq_sum]
  · intro q hq
    simp only [handleStartGame, List.mem_map] at hq
    obtain ⟨pr, hpr, rfl⟩ := hq
    simp [calculateCumulativeScore_eq_sum]

/-- Witness for C5 at the concrete ledger `stC3` (invariant holds there:
`20 = 10 + 10`), extracting the play-again conjunct. -/
theorem totalScore_invariant_witness : TotalInv (handlePlayAgain stC3) :=
  (totalScore_invariant stC3 [] "w" "w" none "w" [] false false
    (by norm_num [TotalInv, stC3, pMid, calculateCumulativeScore])
    (by norm_num [stC3])).2.2.2.1

/-- Field bookkeeping of the per-player toggle. -/
theorem togglePlayer_fields (r : ℕ) (p : Player) :
    (togglePlayer r p).id = p.id ∧ (togglePlayer r p).name = p.name ∧
    (togglePlayer r p).scores = p.scores ∧
    (togglePlayer r p).predictions = p.predictions ∧
    (togglePlayer r p).totalScore = p.totalScore ∧
    (p.isActive = true → (togglePlayer r p).isActive = false ∧
      (togglePlayer r p).gaveUpAtRound = some r ∧
      (togglePlayer r p).joinedAtRound = p.joinedAtRound) ∧
    (p.isActive = false → (togglePlayer r p).isActive = true ∧
      (togglePlayer r p).joinedAtRound = r ∧
      (togglePlayer r p).gaveUpAtRound = p.gaveUpAtRound) := by
  unfold togglePlayer
  cases hact : p.isActive <;> simp [hact]

/-- C6: the give-up transition changes only `isActive` (to false) and
`gaveUpAtRound` (to the current round); the rejoin transition changes only
`isActive` (to true) and `joinedAtRound` (to the current round), keeping
`gaveUpAtRound`; in both, `id`, `name`, `scores`, `predictions` and
`totalScore` of the toggled player are unchanged, and every other player's
record is unchanged. -/
theorem handleTogglePlayerActive_frame (st : GameState) (pid : String)
    (i : ℕ) (p : Player) (hp : st.players[i]? = some p) :
    ∃ q, (handleTogglePlayerActive st pid).players[i]? = some q ∧
      q.id = p.id ∧ q.name = p.name ∧ q.scores = p.scores ∧
      q.predictions = p.predictions ∧ q.totalScore = p.totalScore ∧
      (p.id ≠ pid → q = p) ∧
      (p.id = pid →
        (p.isActive = true → q.isActive = false ∧ q.gaveUpAtRound = some st.currentRound ∧
          q.joinedAtRound = p.joinedAtRound) ∧
        (p.isActive = false → q.isActive = true ∧ q.joinedAtRound = st.currentRound ∧
          q.gaveUpAtRound = p.gaveUpAtRound)) := by
  unfold handleTogglePlayerActive
  cases hidx : st.players.findIdx? (fun x => x.id == pid) with
  | none =>
      refine ⟨p, hp, rfl, rfl, rfl, rfl, rfl, fun _ => rfl, fun hid => ?_⟩
      have hmem : p ∈ st.players := List.getElem?_mem hp
      have hfalse := (List.findIdx?_eq_none_iff.mp hidx) p hmem
      rw [hid] at hfalse
      simp at hfalse
  | some j =>
      by_cases hid : p.id = pid
      · refine ⟨togglePlayer st.currentRound p, ?_, ?_⟩
        · show (st.players.map _)[i]? = _
          rw [List.getElem?_map, hp]
          simp [hid]
        · obtain ⟨h1, h2, h3, h4, h5, h6, h7⟩ := togglePlayer_fields st.currentRound p
          exact ⟨h1, h2, h3, h4, h5, fun h => absurd hid h, fun _ => ⟨h6, h7⟩⟩
      · refine ⟨p, ?_, rfl, rfl, rfl, rfl, rfl, fun _ => rfl, fun h => absurd h hid⟩
        show (st.players.map _)[i]? = _
        rw [List.getElem?_map, hp]
        simp [hid]

/-- Witness for C6: toggling the (active) player of `stC3`. -/
theorem handleTogglePlayerActive_frame_witness :
    ∃ q, (handleTogglePlayerActive stC3 "C").players[0]? = some q ∧
      q.id = pMid.id ∧ q.name = pMid.name ∧ q.scores = pMid.scores ∧
      q.predictions = pMid.predictions ∧ q.totalScore = pMid.totalScore ∧
      (pMid.id ≠ "C" → q = pMid) ∧
      (pMid.id = "C" →
        (pMid.isActive = true → q.isActive = false ∧
          q.gaveUpAtRound = some stC3.currentRound ∧
          q.joinedAtRound = pMid.joinedAtRound) ∧
        (pMid.isActive = false → q.isActive = true ∧ q.joinedAtRound = stC3.currentRound ∧
          q.gaveUpAtRound = pMid.gaveUpAtRound)) :=
  handleTogglePlayerActive_frame stC3 "C" 0 pMid (by rfl)

/-! The comparator order is total and transitive. -/

theorem scoreLe_total (hw : Bool) (a b : Player) :
    (scoreLe hw a b || scoreLe hw b a) = true := by
  unfold scoreLe
  cases hw <;> simp [sub_nonpos] <;> exact le_total _ _

theorem scoreLe_trans (hw : Bool) (a b c : Player)
    (h1 : scoreLe hw a b = true) (h2 : scoreLe hw b c = true) : scoreLe hw a c = true := by
  unfold scoreLe at h1 h2 ⊢
  cases hw <;> simp [sub_nonpos] at h1 h2 ⊢ <;> linarith

/-- Players used as small concrete sort inputs. -/
def psW : List Player := [totalOnly "X" 1, totalOnly "Y" 2]

/-- C7: `rankPlayers` is a stable sort by `totalScore` — it permutes the
input, is pairwise ordered descending when `highScoreWins` and ascending
otherwise, preserves the original relative order of equal totals (the filter
at any total value is unchanged), is idempotent for a fixed flag, and
flipping the flag reverses the relative order of any two positions holding
distinct totals. -/
theorem rankPlayers_spec (ps : List Player) (hw : Bool) :
    (rankPlayers ps hw).Perm ps ∧
    List.Pairwise
      (fun a b => if hw = true then b.totalScore ≤ a.totalScore else a.totalScore ≤ b.totalScore)
      (rankPlayers ps hw) ∧
    (∀ c : ℚ, (rankPlayers ps hw).filter (fun p => p.totalScore == c) =
      ps.filter (fun p => p.totalScore == c)) ∧
    rankPlayers (rankPlayers ps hw) hw = rankPlayers ps hw ∧
    (∀ i j : Fin (rankPlayers ps hw).length, i < j →
      ((rankPlayers ps hw).get i).totalScore ≠ ((rankPlayers ps hw).get j).totalScore →
      ∀ k l : Fin (rankPlayers ps (!hw)).length,
        (rankPlayers ps (!hw)).get k = (rankPlayers ps hw).get i →
        (rankPlayers ps (!hw)).get l = (rankPlayers ps hw).get j → l < k) := by
  have htrans : ∀ a b c : Player,
      scoreLe hw a b = true → scoreLe hw b c = true → scoreLe hw a c = true :=
    scoreLe_trans hw
  have htotal : ∀ a b : Player, (scoreLe hw a b || scoreLe hw b a) = true := scoreLe_total hw
  have hpw := List.sorted_mergeSort htrans htotal ps
  have hpwNot := List.sorted_mergeSort (scoreLe_trans (!hw)) (scoreLe_total (!hw)) ps
  refine ⟨List.mergeSort_perm ps (scoreLe hw), ?_, ?_, ?_, ?_⟩
  · refine hpw.imp ?_
    intro a b h
    unfold scoreLe at h
    cases hw <;> simpa [sub_nonpos] using h
  · intro c
    have hsub : (ps.filter fun p => p.totalScore == c).Sublist ps := List.filter_sublist ps
    have hpwf : (ps.filter fun p => p.totalScore == c).Pairwise
        (fun a b => scoreLe hw a b = true) := by
      apply List.pairwise_of_forall_mem_list
      intro a ha b hb
      have ha3 : a.totalScore = c := by simpa using (List.mem_filter.mp ha).2
      have hb3 : b.totalScore = c := by simpa using (List.mem_filter.mp hb).2
      unfold scoreLe
      cases hw <;> simp [sub_nonpos, ha3, hb3]
    have hsubms := List.sublist_mergeSort htrans htotal hpwf hsub
    have hfs : (ps.filter fun p => p.totalScore == c).filter (fun p => p.totalScore == c) =
        ps.filter fun p => p.totalScore == c :=
      List.filter_eq_self.mpr fun a ha => (List.mem_filter.mp ha).2
    have hsubfil := List.Sublist.filter (fun p => p.totalScore == c) hsubms
    rw [hfs] at hsubfil
    have hperm := (List.mergeSort_perm ps (scoreLe hw)).filter (fun p => p.totalScore == c)
    exact (hsubfil.eq_of_length hperm.length_eq.symm).symm
  · exact List.mergeSort_of_sorted hpw
  · have hpwR : List.Pairwise (fun a b => scoreLe hw a b = true) (rankPlayers ps hw) := hpw
    have hpwNotR : List.Pairwise (fun a b => scoreLe (!hw) a b = true)
      (rankPlayers ps (!hw)) := hpwNot
    intro i j hij hne k l hk hl
    have hT := (List.pairwise_iff_get.mp hpwR) i j hij
    by_contra hcon
    push_neg at hcon
    rcases eq_or_lt_of_le hcon with heq | hlt
    · apply hne
      have hsame : (rankPlayers ps (!hw)).get k = (rankPlayers ps (!hw)).get l := by rw [heq]
      rw [hk, hl] at hsame
      exact congrArg Player.totalScore hsame
    · have hF := (List.pairwise_iff_get.mp hpwNotR) k l hlt
      rw [hk, hl] at hF
      apply hne
      unfold scoreLe at hT hF
      cases hw
      · simp [sub_nonpos] at hT hF
        exact le_antisymm hT hF
      · simp [sub_nonpos] at hT hF
        exact le_antisymm hF hT

/-- Witness for C7: the stability conjunct instantiated at a concrete list
and total value. -/
theorem rankPlayers_spec_witness :
    (rankPlayers psW true).filter (fun p => p.totalScore == 5) =
      psW.filter (fun p => p.totalScore == 5) :=
  (rankPlayers_spec psW true).2.2.1 5

/-- C8: `determineWinner` is exactly the head of `rankPlayers` under the same
flag — `some` of the first ranked player on a non-empty list, and `none` (the
`null` that the orchestrator surfaces as the empty-player-set error) exactly
when the player list is empty. -/
theorem determineWinner_spec (ps : List Player) (hw : Bool) :
    determineWinner ps hw = (rankPlayers ps hw).head? ∧
    (determineWinner ps hw = none ↔ ps = []) ∧
    (∀ w rest, rankPlayers ps hw = w :: rest → determineWinner ps hw = some w) := by
  have hlen : (ps.mergeSort (scoreLe hw)).length = ps.length :=
    (List.mergeSort_perm ps (scoreLe hw)).length_eq
  refine ⟨?_, ⟨?_, ?_⟩, ?_⟩
  · unfold determineWinner
    by_cases h : ps.length = 0
    · rw [if_pos h]
      have hnil : ps = [] := List.length_eq_zero.mp h
      subst hnil
      simp [rankPlayers]
    · rw [if_neg h]
      rfl
  · intro hh
    unfold determineWinner at hh
    by_cases h : ps.length = 0
    · exact List.length_eq_zero.mp h
    · rw [if_neg h] at hh
      have hnil := List.head?_eq_none_iff.mp hh
      have hl2 := congrArg List.length hnil
      rw [hlen] at hl2
      simp at hl2
      exact hl2
  · intro hh
    unfold determineWinner
    rw [if_pos (by rw [hh]; rfl)]
  · intro w rest hcons
    unfold determineWinner
    have h : ps.length ≠ 0 := by
      intro h0
      have hnil := List.length_eq_zero.mp h0
      rw [hnil] at hcons
      simp [rankPlayers] at hcons
    rw [if_neg h]
    show (rankPlayers ps hw).head? = some w
    rw [hcons]
    rfl

/-- Witness for C8: the head characterisation at a concrete list. -/
theorem determineWinner_spec_witness :
    determineWinner psW true = (rankPlayers psW true).head? :=
  (determineWinner_spec psW true).1

/-! The entries built on submit carry the input-or-zero score for each active
player id. -/

theorem buildRoundScores_mem_score (st : GameState) (f g : String → Option ℚ) (e : RoundScore)
    (he : e ∈ buildRoundScores st f g) : e.score = (f e.playerId).getD 0 := by
  simp only [buildRoundScores, List.mem_map] at he
  obtain ⟨q, hq, rfl⟩ := he
  rfl

theorem buildRoundScores_find (st : GameState) (f g : String → Option ℚ) (p : Player)
    (hmem : p ∈ st.players) (hact : p.isActive = true) :
    ∃ e, (buildRoundScores st f g).find? (fun s => s.playerId == p.id) = some e ∧
      e.score = (f p.id).getD 0 := by
  have hpfil : p ∈ st.players.filter (fun x => x.isActive) :=
    List.mem_filter.mpr ⟨hmem, hact⟩
  have hent : (⟨p.id, (f p.id).getD 0,
      if st.isDualScoring then some ((g p.id).getD 0) else none⟩ : RoundScore) ∈
      buildRoundScores st f g := by
    simp only [buildRoundScores, List.mem_map]
    exact ⟨p, hpfil, rfl⟩
  have hsome : ((buildRoundScores st f g).find? (fun s => s.playerId == p.id)).isSome = true := by
    rw [List.find?_isSome]
    exact ⟨_, hent, by simp⟩
  obtain ⟨e, he⟩ := Option.isSome_iff_exists.mp hsome
  refine ⟨e, he, ?_⟩
  have hee : e.playerId = p.id := by simpa using List.find?_some he
  rw [buildRoundScores_mem_score st f g e (List.mem_of_find?_eq_some he), hee]

/-- C10: submitting a round records a score for every active player even when
no value was entered: the blank or missing input is parsed as 0 and written
into the slot of the submitted round (index `currentRound - 1`), zero-filling
any earlier missing slots and leaving other existing slots untouched, while
inactive players' records are unchanged. -/
theorem handleSubmitRound_defaults (st : GameState) (f g : String → Option ℚ)
    (i : ℕ) (p : Player) (hp : st.players[i]? = some p) :
    ∃ q, (handleSubmitRound st f g).players[i]? = some q ∧
      (p.isActive = false → q = p) ∧
      (p.isActive = true →
        st.currentRound - 1 < q.scores.length ∧
        q.scores[st.currentRound - 1]? = some ((f p.id).getD 0) ∧
        (∀ j, p.scores.length ≤ j → j < st.currentRound - 1 → q.scores[j]? = some 0) ∧
        (∀ j, j < p.scores.length → j ≠ st.currentRound - 1 → q.scores[j]? = p.scores[j]?)) := by
  by_cases hact : p.isActive = true
  · obtain ⟨e, he, hescore⟩ := buildRoundScores_find st f g p (List.getElem?_mem hp) hact
    refine ⟨applyEntry st.currentRound e p, ?_, ?_, ?_⟩
    · show (st.players.map _)[i]? = _
      rw [List.getElem?_map, hp]
      simp [hact, he]
    · intro hfalse
      rw [hfalse] at hact
      exact absurd hact (by simp)
    · intro _
      refine ⟨?_, ?_, ?_, ?_⟩
      · rw [applyEntry_scores, slotUpdate_length]
        omega
      · rw [applyEntry_scores, slotUpdate_getElem_at, hescore]
      · intro j h1 h2
        rw [applyEntry_scores]
        exact slotUpdate_getElem_fill _ _ _ _ h1 h2
      · intro j h1 h2
        rw [applyEntry_scores]
        exact slotUpdate_getElem_other _ _ _ _ h1 h2
  · have hfalse : p.isActive = false := by simpa using hact
    refine ⟨p, ?_, fun _ => rfl, fun htrue => absurd htrue hact⟩
    show (st.players.map _)[i]? = _
    rw [List.getElem?_map, hp]
    simp [hfalse]

/-- Witness for C10: the active player of `stC3` with all inputs blank. -/
theorem handleSubmitRound_defaults_witness :
    ∃ q, (handleSubmitRound stC3 (fun _ => none) (fun _ => none)).players[0]? = some q ∧
      (pMid.isActive = false → q = pMid) ∧
      (pMid.isActive = true →
        stC3.currentRound - 1 < q.scores.length ∧
        q.scores[stC3.currentRound - 1]? = some (((fun _ => none : String → Option ℚ) pMid.id).getD 0) ∧
        (∀ j, pMid.scores.length ≤ j → j < stC3.currentRound - 1 → q.scores[j]? = some 0) ∧
        (∀ j, j < pMid.scores.length → j ≠ stC3.currentRound - 1 →
          q.scores[j]? = pMid.scores[j]?)) :=
  handleSubmitRound_defaults stC3 (fun _ => none) (fun _ => none) 0 pMid (by rfl)

end GameScore
